import Mathlib

/-!
Verification of `callbench.c` against its specification.

The development shallowly embeds the program: machine integers become
`Nat`/`Int` with explicit reductions modulo powers of two where the C
conversions matter, the monotonic clock becomes an abstract sequence of
`timespec` readings indexed by the order in which `clock_gettime` is called
by the bracketing code in `run_bench_ns`, and the measured operations become
either opaque labels (for counting invocations) or small trace-producing
functions (for the resource-handling analysis of `mmap_mb` and `file_mb`).
-/

namespace Callbench

/-- `LONG_MAX` for the 64-bit `long` used throughout the program. -/
def LONG_MAX : Int := 2 ^ 63 - 1

/-- Conversion of a signed 64-bit value to `unsigned long` (reduction mod `2^64`),
as performed by C's integer conversions. -/
def ulongOfInt (i : Int) : Nat := (i % (2 ^ 64 : Int)).toNat

/-- Conversion of an `unsigned long` value back to `long`.  For values above
`LONG_MAX` this is implementation-defined in C; gcc (the compiler named in the
Makefile) wraps modulo `2^64`, which is what we model. -/
def longOfNat (u : Nat) : Int :=
  if u < 2 ^ 63 then (u : Int) else (u : Int) - 2 ^ 64

/-- The compound assignment `best_ns2 /= calls` where `best_ns2` is `long` and
`calls` is `unsigned long`: the usual arithmetic conversions turn both operands
into `unsigned long`, the division is unsigned, and the result is converted
back to `long` on assignment. -/
def c_div_ulong (a : Int) (b : Nat) : Int := longOfNat (ulongOfInt a / b)

/-- `struct timespec`: whole seconds plus fractional nanoseconds. -/
structure timespec where
  tv_sec : Int
  tv_nsec : Int

/-- `true_ns` from callbench.c: collapse a timespec into one nanosecond count. -/
def true_ns (ts : timespec) : Int := ts.tv_nsec + ts.tv_sec * 1000000000

/-- The clock is modelled as the sequence of `timespec` values returned by the
successive `clock_gettime` calls issued by `run_bench_ns` itself (the bracketing
reads); reading `2*s` is the `before` and reading `2*s + 1` the `after` of
sample number `s`. -/
def elapsed_ns (clock : Nat → timespec) (s : Nat) : Int :=
  true_ns (clock (2 * s + 1)) - true_ns (clock (2 * s))

/-- The inner `for (i = 0; i < iters; i++)` loop of `run_bench_ns`: take one
timed sample per iteration and keep the running minimum in `best` (the C
variable `best_ns2`).  `s` is the index of the next timed sample.  The loop
counter is `unsigned int`; this recursion matches the C loop whenever the
bound is below `2^32` (see `loop_exits` for the counter model). -/
def iter_loop (clock : Nat → timespec) : Nat → Nat → Int → Int
  | _, 0, best => best
  | s, n + 1, best =>
    let e := elapsed_ns clock s
    iter_loop clock (s + 1) n (if e < best then e else best)

/-- The outer `for (rep = 0; rep < reps; rep++)` loop of `run_bench_ns`:
per repetition, run the iteration loop starting from `LONG_MAX`, divide the
per-repetition best by `calls` (C's mixed signed/unsigned division), and keep
the running minimum in `best1` (the C variable `best_ns1`).  `r` is the index
of the current repetition, which fixes which clock readings it consumes. -/
def rep_loop (clock : Nat → timespec) (calls iters : Nat) : Nat → Nat → Int → Int
  | _, 0, best1 => best1
  | r, n + 1, best1 =>
    let best2 := iter_loop clock (r * iters) iters LONG_MAX
    let best2d := c_div_ulong best2 calls
    rep_loop clock calls iters (r + 1) n (if best2d < best1 then best2d else best1)

/-- `run_bench_ns` from callbench.c, as a function of the clock-reading
sequence it observes.  The invocations of `inner_call` have no effect on the
returned value (their cost shows up only through the clock readings), so the
operation itself does not appear here; `run_bench_ns_invocations` counts its
invocations. -/
def run_bench_ns (clock : Nat → timespec) (calls iters reps : Nat) : Int :=
  rep_loop clock calls iters 0 reps LONG_MAX

/-- The iteration loop again, this time counting invocations of `inner_call`:
each iteration runs the innermost `for (call = 0; call < calls; call++)` loop,
which invokes the operation `calls` times. -/
def inv_iter_loop (calls : Nat) : Nat → Nat → Nat
  | 0, cnt => cnt
  | n + 1, cnt => inv_iter_loop calls n (cnt + calls)

/-- The repetition loop, counting invocations of `inner_call`. -/
def inv_rep_loop (calls iters : Nat) : Nat → Nat → Nat
  | 0, cnt => cnt
  | n + 1, cnt => inv_rep_loop calls iters n (inv_iter_loop calls iters cnt)

/-- Total number of `inner_call` invocations performed by one `run_bench_ns`
call. -/
def run_bench_ns_invocations (calls iters reps : Nat) : Nat :=
  inv_rep_loop calls iters reps 0

/-- Minimum of a list of integers (`none` on the empty list).  Used only to
state specification-side formulas. -/
def min_list : List Int → Option Int
  | [] => none
  | x :: xs => some (xs.foldl min x)

/-- The whitespace class skipped by `atoi` (C locale: space, \t, \n, \v, \f, \r). -/
def c_isspace (c : Char) : Bool :=
  c = ' ' || c.toNat = 9 || c.toNat = 10 || c.toNat = 11 || c.toNat = 12 || c.toNat = 13

/-- Accumulate the leading decimal digits of a character list, stopping at the
first non-digit, as `atoi`/`strtol` do. -/
def digits_value : List Char → Nat → Nat
  | [], acc => acc
  | c :: cs, acc => if c.isDigit then digits_value cs (acc * 10 + (c.toNat - 48)) else acc

/-- `atoi`: skip leading whitespace, read an optional sign, then the leading
run of digits; an empty digit run yields 0.  The C function returns `int` and
has undefined behavior on overflow; this model returns the exact mathematical
value, which coincides with `atoi` on every in-range input. -/
def atoi (s : String) : Int :=
  match s.data.dropWhile (fun c => c_isspace c) with
  | '-' :: cs => -(digits_value cs 0 : Int)
  | '+' :: cs => (digits_value cs 0 : Int)
  | cs => (digits_value cs 0 : Int)

/-- `get_arg` from callbench.c: `value = atoi(argv[index])` (an `int` assigned
to an `unsigned long`, hence reduced mod `2^64`) when `argc > index`, else 0;
a resulting 0 is replaced by the default. -/
def get_arg (argv : List String) (index : Nat) (default_value : Nat) : Nat :=
  let value := if index < argv.length then ulongOfInt (atoi (argv.getD index "")) else 0
  if value = 0 then default_value else value

/-- The four measured operations, as labels for counting invocations. -/
inductive MeasuredOp
  | time_syscall_mb
  | time_implicit_mb
  | mmap_mb
  | file_mb
deriving DecidableEq

/-- Clock readings consumed so far shift the index of later readings. -/
def clock_shift (clock : Nat → timespec) (k : Nat) : Nat → timespec :=
  fun n => clock (k + n)

/-- Result of one benchmark driver (`bench_time` / `bench_file`): its return
value, the operations it measured with their invocation counts (in order), the
labeled result lines it prints, and how many bracketing clock readings it
consumed. -/
structure DriverResult where
  ret : Int
  runs : List (MeasuredOp × Nat)
  lines : List (String × Int)
  clockUsed : Nat

/-- `bench_time` from callbench.c: resolve `calls`/`iters`/`reps` with the
clock-pair defaults 100000/32/5, run `run_bench_ns` on the two clock
operations with identical parameters, and report one labeled line each. -/
def bench_time (argv : List String) (clock : Nat → timespec) : DriverResult :=
  let calls := get_arg argv 2 100000
  let iters := get_arg argv 3 32
  let reps := get_arg argv 4 5
  let best_ns_syscall := run_bench_ns clock calls iters reps
  let best_ns_implicit := run_bench_ns (clock_shift clock (2 * (iters * reps))) calls iters reps
  { ret := 0
    runs := [(MeasuredOp.time_syscall_mb, run_bench_ns_invocations calls iters reps),
             (MeasuredOp.time_implicit_mb, run_bench_ns_invocations calls iters reps)]
    lines := [("syscall", best_ns_syscall), ("implicit", best_ns_implicit)]
    clockUsed := 4 * (iters * reps) }

/-- `bench_file` from callbench.c: file-pair defaults 100/128/5, operations
`mmap_mb` then `file_mb`, labels `mmap` and `read`. -/
def bench_file (argv : List String) (clock : Nat → timespec) : DriverResult :=
  let calls := get_arg argv 2 100
  let iters := get_arg argv 3 128
  let reps := get_arg argv 4 5
  let best_ns_mmap := run_bench_ns clock calls iters reps
  let best_ns_file := run_bench_ns (clock_shift clock (2 * (iters * reps))) calls iters reps
  { ret := 0
    runs := [(MeasuredOp.mmap_mb, run_bench_ns_invocations calls iters reps),
             (MeasuredOp.file_mb, run_bench_ns_invocations calls iters reps)]
    lines := [("mmap", best_ns_mmap), ("read", best_ns_file)]
    clockUsed := 4 * (iters * reps) }

/-- `tolower` restricted to the ASCII arguments the program feeds it. -/
def tolower (c : Char) : Char :=
  if 'A' ≤ c ∧ c ≤ 'Z' then Char.ofNat (c.toNat + 32) else c

/-- `argv[1][0]`: the first character of a C string; an empty string yields its
NUL terminator. -/
def str_head (s : String) : Char := s.data.headD (Char.ofNat 0)

/-- The mode character `main` computes: `'a'` when fewer than two arguments,
else the lowercased first character of the first argument. -/
def mode_of (argv : List String) : Char :=
  if 2 ≤ argv.length then tolower (str_head (argv.getD 1 "")) else 'a'

/-- The part of the diagnostic that names the three valid modes. -/
def valid_modes_str : String := "[t]ime, [f]ile, [a]ll"

/-- A single-quote character, kept out of string literals. -/
def squote : String := String.mk [Char.ofNat 39]

/-- The diagnostic printed for an invalid mode character. -/
def invalid_mode_msg (c : Char) : String :=
  "Invalid mode " ++ squote ++ String.mk [c] ++ squote ++ "! Valid modes are: " ++
    valid_modes_str ++ "\n"

/-- Observable result of running `main`: exit status, the measured operations
(in order, with invocation counts), the labeled result lines, and the
diagnostic message if any. -/
structure MainResult where
  exitCode : Int
  runs : List (MeasuredOp × Nat)
  lines : List (String × Int)
  errMsg : Option String

/-- The driver result of a driver that was not run. -/
def emptyDriver : DriverResult := { ret := 0, runs := [], lines := [], clockUsed := 0 }

/-- `main` from callbench.c: mode dispatch, then `bench_time` and/or
`bench_file` with early return on a nonzero driver status. -/
def main (argv : List String) (clock : Nat → timespec) : MainResult :=
  let mode := mode_of argv
  if mode = 't' ∨ mode = 'f' ∨ mode = 'a' then
    let do_time : Bool := mode = 't' || mode = 'a'
    let do_file : Bool := mode = 'f' || mode = 'a'
    let tr := if do_time then bench_time argv clock else emptyDriver
    if tr.ret ≠ 0 then
      { exitCode := tr.ret, runs := tr.runs, lines := tr.lines, errMsg := none }
    else
      let fr := if do_file then bench_file argv (clock_shift clock tr.clockUsed) else emptyDriver
      if fr.ret ≠ 0 then
        { exitCode := fr.ret, runs := tr.runs ++ fr.runs, lines := tr.lines ++ fr.lines,
          errMsg := none }
      else
        { exitCode := 0, runs := tr.runs ++ fr.runs, lines := tr.lines ++ fr.lines,
          errMsg := none }
  else
    { exitCode := 1, runs := [], lines := [], errMsg := some (invalid_mode_msg mode) }

/-- System-level actions performed by the two file-read operations. -/
inductive SysEvent
  | ev_open (fd : Int)
  | ev_mmap (fd : Int) (ok : Bool)
  | ev_memcpy
  | ev_munmap
  | ev_read (fd : Int)
  | ev_close (fd : Int)
  | ev_malloc
  | ev_free
deriving DecidableEq

/-- Whether a measured operation returns normally or dies on a fault. -/
inductive OpOutcome
  | normal
  | crashed
deriving DecidableEq

/-- Environment for one call of a file-read operation: the value `open`
returns (−1 on failure, a nonnegative descriptor on success) and whether
`mmap` would succeed given a valid descriptor. -/
structure OpEnv where
  open_fd : Int
  mmap_ok : Bool

/-- `mmap_mb` from callbench.c: open, mmap, malloc, memcpy, munmap, close,
free — with no error checking anywhere.  When `open` fails, the invalid
descriptor is passed straight to `mmap`, which fails, and `memcpy` then reads
from the failed-mapping sentinel, faulting; the same happens when `mmap`
itself fails on a valid descriptor.  The trace ends at the faulting action. -/
def mmap_mb (env : OpEnv) : OpOutcome × List SysEvent :=
  let fd := env.open_fd
  if 0 ≤ fd ∧ env.mmap_ok = true then
    (OpOutcome.normal,
      [SysEvent.ev_open fd, SysEvent.ev_mmap fd true, SysEvent.ev_malloc, SysEvent.ev_memcpy,
       SysEvent.ev_munmap, SysEvent.ev_close fd, SysEvent.ev_free])
  else
    (OpOutcome.crashed,
      [SysEvent.ev_open fd, SysEvent.ev_mmap fd false, SysEvent.ev_malloc, SysEvent.ev_memcpy])

/-- `file_mb` from callbench.c: open, malloc, read, close, free — with no
error checking.  When `open` fails, `read` is issued on descriptor −1, its
error return is discarded, and the function still returns normally. -/
def file_mb (env : OpEnv) : OpOutcome × List SysEvent :=
  let fd := env.open_fd
  (OpOutcome.normal,
    [SysEvent.ev_open fd, SysEvent.ev_malloc, SysEvent.ev_read fd, SysEvent.ev_close fd,
     SysEvent.ev_free])

/-- One step of a `run_bench_ns` loop counter: the counters are
`unsigned int`, so the increment wraps modulo `2^32`. -/
def counter_step (c : Nat) : Nat := (c + 1) % 2 ^ 32

/-- Value of a loop counter after `n` increments from 0. -/
def counter_val : Nat → Nat
  | 0 => 0
  | n + 1 => counter_step (counter_val n)

/-- A `run_bench_ns` loop with (64-bit) bound `bound` exits iff its (32-bit)
counter ever satisfies `¬ (counter < bound)`. -/
def loop_exits (bound : Nat) : Prop := ∃ n, bound ≤ counter_val n

/-- A monotonic clock source: each reading is at least the previous one. -/
def ClockMono (clock : Nat → timespec) : Prop :=
  ∀ n : Nat, true_ns (clock n) ≤ true_ns (clock (n + 1))

/-- A clock whose nanosecond readings are representable in the program's
(64-bit) `long`, as CLOCK_MONOTONIC readings are: nonnegative and at most
`LONG_MAX` (the spec requires the integer to be wide enough for durations up
to centuries; a reading outside this range would overflow the `long`
arithmetic in `true_ns`/`run_bench_ns`, which is undefined behavior). -/
def ClockRepresentable (clock : Nat → timespec) : Prop :=
  ∀ n : Nat, 0 ≤ true_ns (clock n) ∧ true_ns (clock n) ≤ LONG_MAX

/-- A concrete constant clock, used to instantiate the theorems. -/
def zero_clock : Nat → timespec := fun _ => ⟨0, 0⟩

/-! ## Helper lemmas -/

lemma counter_val_eq (n : Nat) : counter_val n = n % 2 ^ 32 := by
  induction n with
  | zero => rfl
  | succ n ih =>
    rw [counter_val, counter_step, ih]
    omega

lemma ite_lt_eq_min (e b : Int) : (if e < b then e else b) = min b e := by
  rcases le_or_lt b e with h | h
  · rw [if_neg (not_lt.mpr h), min_eq_left h]
  · rw [if_pos h, min_eq_right h.le]

lemma foldl_min_comm (l : List Int) : ∀ a b : Int, l.foldl min (min a b) = min a (l.foldl min b) := by
  induction l with
  | nil => intro a b; rfl
  | cons x l ih =>
    intro a b
    simp only [List.foldl_cons]
    rw [min_assoc, ih]

lemma foldl_min_le_init (l : List Int) : ∀ b : Int, l.foldl min b ≤ b := by
  induction l with
  | nil => intro b; exact le_refl b
  | cons x l ih =>
    intro b
    simp only [List.foldl_cons]
    exact le_trans (ih (min b x)) (min_le_left b x)

lemma foldl_min_lb (l : List Int) : ∀ b lo : Int, lo ≤ b → (∀ x ∈ l, lo ≤ x) → lo ≤ l.foldl min b := by
  induction l with
  | nil => intro b lo h _; exact h
  | cons x l ih =>
    intro b lo hb hl
    simp only [List.foldl_cons]
    exact ih _ _ (le_min hb (hl x (List.mem_cons_self x l)))
      (fun y hy => hl y (List.mem_cons_of_mem _ hy))

lemma foldl_min_eq_min_list (l : List Int) (b : Int) (hne : l ≠ [])
    (hle : ∀ x ∈ l, x ≤ b) : l.foldl min b = (min_list l).getD 0 := by
  match l with
  | [] => exact absurd rfl hne
  | x :: xs =>
    simp only [List.foldl_cons]
    rw [min_eq_right (hle x (List.mem_cons_self x xs))]
    rfl

lemma min_list_eq_some (l : List Int) (hne : l ≠ []) :
    min_list l = some ((min_list l).getD 0) := by
  match l with
  | [] => exact absurd rfl hne
  | x :: xs => rfl

lemma clock_mono_le {clock : Nat → timespec} (h : ClockMono clock) {m n : Nat} (hmn : m ≤ n) :
    true_ns (clock m) ≤ true_ns (clock n) :=
  monotone_nat_of_le_succ h hmn

lemma elapsed_nonneg {clock : Nat → timespec} (hm : ClockMono clock) (s : Nat) :
    0 ≤ elapsed_ns clock s := by
  have h := hm (2 * s)
  unfold elapsed_ns
  omega

lemma elapsed_le_long_max {clock : Nat → timespec} (hb : ClockRepresentable clock) (s : Nat) :
    elapsed_ns clock s ≤ LONG_MAX := by
  have h1 := hb (2 * s)
  have h2 := hb (2 * s + 1)
  unfold elapsed_ns
  omega

lemma iter_loop_eq_foldl (clock : Nat → timespec) :
    ∀ (n s : Nat) (b : Int),
      iter_loop clock s n b =
        ((List.range' s n).map (fun k => elapsed_ns clock k)).foldl min b := by
  intro n
  induction n with
  | zero => intro s b; rfl
  | succ n ih =>
    intro s b
    rw [List.range'_succ]
    simp only [List.map_cons, List.foldl_cons, iter_loop]
    rw [ite_lt_eq_min, ih]

lemma rep_loop_eq_foldl (clock : Nat → timespec) (calls iters : Nat) :
    ∀ (n r : Nat) (b : Int),
      rep_loop clock calls iters r n b =
        ((List.range' r n).map (fun rr =>
          c_div_ulong (iter_loop clock (rr * iters) iters LONG_MAX) calls)).foldl min b := by
  intro n
  induction n with
  | zero => intro r b; rfl
  | succ n ih =>
    intro r b
    rw [List.range'_succ]
    simp only [List.map_cons, List.foldl_cons, rep_loop]
    rw [ite_lt_eq_min, ih]

lemma c_div_ulong_eq_tdiv (x : Int) (c : Nat) (h0 : 0 ≤ x) (h1 : x ≤ LONG_MAX) :
    c_div_ulong x c = Int.tdiv x (c : Int) ∧
      0 ≤ c_div_ulong x c ∧ c_div_ulong x c ≤ LONG_MAX := by
  have hx : ((x.toNat : Nat) : Int) = x := Int.toNat_of_nonneg h0
  have hlt : x < 2 ^ 64 := by unfold LONG_MAX at h1; omega
  have hu : ulongOfInt x = x.toNat := by
    unfold ulongOfInt
    rw [Int.emod_eq_of_lt h0 hlt]
  have hn : x.toNat < 2 ^ 63 := by unfold LONG_MAX at h1; omega
  have hdivn : x.toNat / c ≤ x.toNat := Nat.div_le_self _ _
  have hdiv : x.toNat / c < 2 ^ 63 := lt_of_le_of_lt hdivn hn
  have htd : Int.tdiv ((x.toNat : Nat) : Int) ((c : Nat) : Int) = ((x.toNat / c : Nat) : Int) := rfl
  unfold c_div_ulong longOfNat
  rw [hu, if_pos hdiv]
  refine ⟨?_, ?_, ?_⟩
  · conv_rhs => rw [← hx]
    exact htd.symm
  · exact Int.ofNat_nonneg _
  · unfold LONG_MAX at h1 ⊢
    omega

lemma long_max_nonneg : (0 : Int) ≤ LONG_MAX := by unfold LONG_MAX; norm_num

lemma iter_best_char {clock : Nat → timespec} (hm : ClockMono clock)
    (hb : ClockRepresentable clock) (iters : Nat) (hi : 1 ≤ iters) (r : Nat) :
    iter_loop clock (r * iters) iters LONG_MAX =
      (min_list ((List.range iters).map (fun i => elapsed_ns clock (r * iters + i)))).getD 0 ∧
    0 ≤ iter_loop clock (r * iters) iters LONG_MAX ∧
    iter_loop clock (r * iters) iters LONG_MAX ≤ LONG_MAX := by
  rw [iter_loop_eq_foldl]
  have hlist : (List.range' (r * iters) iters).map (fun k => elapsed_ns clock k) =
      (List.range iters).map (fun i => elapsed_ns clock (r * iters + i)) := by
    rw [List.range'_eq_map_range, List.map_map]
    rfl
  rw [hlist]
  have hne : (List.range iters).map (fun i => elapsed_ns clock (r * iters + i)) ≠ [] := by
    simp only [ne_eq, List.map_eq_nil_iff, List.range_eq_nil]
    omega
  have hub : ∀ x ∈ (List.range iters).map (fun i => elapsed_ns clock (r * iters + i)),
      x ≤ LONG_MAX := by
    intro x hx
    obtain ⟨i, _, rfl⟩ := List.mem_map.mp hx
    exact elapsed_le_long_max hb _
  have hlb : ∀ x ∈ (List.range iters).map (fun i => elapsed_ns clock (r * iters + i)),
      (0 : Int) ≤ x := by
    intro x hx
    obtain ⟨i, _, rfl⟩ := List.mem_map.mp hx
    exact elapsed_nonneg hm _
  exact ⟨foldl_min_eq_min_list _ _ hne hub,
    foldl_min_lb _ _ _ long_max_nonneg hlb,
    foldl_min_le_init _ _⟩

lemma rep_loop_add (clock : Nat → timespec) (calls iters : Nat) :
    ∀ (n m r : Nat) (b : Int),
      rep_loop clock calls iters r (n + m) b =
        rep_loop clock calls iters (r + n) m (rep_loop clock calls iters r n b) := by
  intro n
  induction n with
  | zero => intro m r b; simp [rep_loop]
  | succ n ih =>
    intro m r b
    have harr : n + 1 + m = (n + m) + 1 := by omega
    rw [harr]
    simp only [rep_loop]
    rw [ih]
    have h2 : r + 1 + n = r + (n + 1) := by omega
    rw [h2]

lemma rep_loop_le_init (clock : Nat → timespec) (calls iters : Nat) :
    ∀ (n r : Nat) (b : Int), rep_loop clock calls iters r n b ≤ b := by
  intro n
  induction n with
  | zero => intro r b; exact le_refl b
  | succ n ih =>
    intro r b
    simp only [rep_loop]
    refine le_trans (ih _ _) ?_
    split <;> omega

lemma inv_iter_loop_eq (calls : Nat) : ∀ (n cnt : Nat),
    inv_iter_loop calls n cnt = cnt + n * calls := by
  intro n
  induction n with
  | zero => intro cnt; simp [inv_iter_loop]
  | succ n ih =>
    intro cnt
    rw [inv_iter_loop, ih]
    ring

lemma inv_rep_loop_eq (calls iters : Nat) : ∀ (n cnt : Nat),
    inv_rep_loop calls iters n cnt = cnt + n * (iters * calls) := by
  intro n
  induction n with
  | zero => intro cnt; simp [inv_rep_loop]
  | succ n ih =>
    intro cnt
    rw [inv_rep_loop, ih, inv_iter_loop_eq]
    ring

lemma zero_clock_mono : ClockMono zero_clock := by
  intro n
  exact le_refl _

lemma zero_clock_representable : ClockRepresentable zero_clock := by
  intro n
  constructor
  · norm_num [zero_clock, true_ns]
  · norm_num [zero_clock, true_ns, LONG_MAX]

/-! ## Claim theorems -/

/-- C1: for every operation and all `calls ≥ 1`, `iters ≥ 1`, `reps ≥ 1` (and
a monotonic, `long`-representable clock source), `run_bench_ns` returns the
minimum over the `reps` repetitions of the per-repetition minimum over the
`iters` elapsed-nanosecond samples (each bracketing `calls` invocations),
divided by `calls` with truncating integer division — the division happening
only after the per-repetition minimum is taken, never on an individual
sample. -/
theorem run_bench_ns_min_before_div (clock : Nat → timespec) (calls iters reps : Nat)
    (hc : 1 ≤ calls) (hi : 1 ≤ iters) (hr : 1 ≤ reps)
    (hm : ClockMono clock) (hb : ClockRepresentable clock) :
    min_list ((List.range reps).map (fun r =>
        Int.tdiv ((min_list ((List.range iters).map (fun i =>
          elapsed_ns clock (r * iters + i)))).getD 0) ((calls : Nat) : Int))) =
      some (run_bench_ns clock calls iters reps) := by
  unfold run_bench_ns
  rw [rep_loop_eq_foldl]
  have hlist : (List.range' 0 reps).map (fun rr =>
      c_div_ulong (iter_loop clock (rr * iters) iters LONG_MAX) calls) =
      (List.range reps).map (fun r =>
        Int.tdiv ((min_list ((List.range iters).map (fun i =>
          elapsed_ns clock (r * iters + i)))).getD 0) ((calls : Nat) : Int)) := by
    rw [← List.range_eq_range']
    refine List.map_congr_left ?_
    intro r _
    obtain ⟨heq, hlo, hhi⟩ := iter_best_char hm hb iters hi r
    obtain ⟨hdiv, _, _⟩ := c_div_ulong_eq_tdiv _ calls hlo hhi
    rw [← heq, hdiv]
  rw [hlist]
  have hne : (List.range reps).map (fun r =>
      Int.tdiv ((min_list ((List.range iters).map (fun i =>
        elapsed_ns clock (r * iters + i)))).getD 0) ((calls : Nat) : Int)) ≠ [] := by
    simp only [ne_eq, List.map_eq_nil_iff, List.range_eq_nil]
    omega
  have hub : ∀ x ∈ (List.range reps).map (fun r =>
      Int.tdiv ((min_list ((List.range iters).map (fun i =>
        elapsed_ns clock (r * iters + i)))).getD 0) ((calls : Nat) : Int)),
      x ≤ LONG_MAX := by
    intro x hx
    obtain ⟨r, _, rfl⟩ := List.mem_map.mp hx
    obtain ⟨heq, hlo, hhi⟩ := iter_best_char hm hb iters hi r
    obtain ⟨hdiv, _, hd2⟩ := c_div_ulong_eq_tdiv _ calls hlo hhi
    rw [← heq, ← hdiv]
    exact hd2
  rw [foldl_min_eq_min_list _ _ hne hub]
  exact min_list_eq_some _ hne

/-- C1 witness: the theorem instantiated at the constant clock and
`calls = iters = reps = 1`. -/
theorem run_bench_ns_min_before_div_witness :
    min_list ((List.range 1).map (fun r =>
        Int.tdiv ((min_list ((List.range 1).map (fun i =>
          elapsed_ns zero_clock (r * 1 + i)))).getD 0) ((1 : Nat) : Int))) =
      some (run_bench_ns zero_clock 1 1 1) :=
  run_bench_ns_min_before_div zero_clock 1 1 1 (le_refl 1) (le_refl 1) (le_refl 1)
    zero_clock_mono zero_clock_representable

/-- C3: for all `calls ≥ 1`, `iters ≥ 1`, `reps ≥ 1` and any monotonic clock
(with `long`-representable readings), `run_bench_ns` returns a value `≥ 0`. -/
theorem run_bench_ns_nonneg (clock : Nat → timespec) (calls iters reps : Nat)
    (hc : 1 ≤ calls) (hi : 1 ≤ iters) (hr : 1 ≤ reps)
    (hm : ClockMono clock) (hb : ClockRepresentable clock) :
    0 ≤ run_bench_ns clock calls iters reps := by
  unfold run_bench_ns
  rw [rep_loop_eq_foldl]
  refine foldl_min_lb _ _ _ long_max_nonneg ?_
  intro x hx
  obtain ⟨r, _, rfl⟩ := List.mem_map.mp hx
  obtain ⟨_, hlo, hhi⟩ := iter_best_char hm hb iters hi r
  obtain ⟨_, hd1, _⟩ := c_div_ulong_eq_tdiv _ calls hlo hhi
  exact hd1

/-- C3 witness: the theorem instantiated at the constant clock and
`calls = iters = reps = 1`. -/
theorem run_bench_ns_nonneg_witness : 0 ≤ run_bench_ns zero_clock 1 1 1 :=
  run_bench_ns_nonneg zero_clock 1 1 1 (le_refl 1) (le_refl 1) (le_refl 1)
    zero_clock_mono zero_clock_representable

/-- C4: with `calls` and `iters` held identical and the operation's cost over
time fixed (the two runs observe the same sample sequence), raising `reps`
from `R1` to `R2 > R1` never enlarges the result of `run_bench_ns`. -/
theorem run_bench_ns_antitone_reps (clock : Nat → timespec) (calls iters R1 R2 : Nat)
    (h : R1 < R2) :
    run_bench_ns clock calls iters R2 ≤ run_bench_ns clock calls iters R1 := by
  unfold run_bench_ns
  have hsplit : R2 = R1 + (R2 - R1) := by omega
  rw [hsplit, rep_loop_add]
  exact rep_loop_le_init _ _ _ _ _ _

/-- C4 witness: two repetitions never beat one repetition upward, at the
constant clock. -/
theorem run_bench_ns_antitone_reps_witness :
    run_bench_ns zero_clock 1 1 2 ≤ run_bench_ns zero_clock 1 1 1 :=
  run_bench_ns_antitone_reps zero_clock 1 1 1 2 (by decide)

/-- C9: a command-line token whose `atoi` parse is a negative (in-range)
integer is stored into the `unsigned long` parameter modulo `2^64` — an
enormous count above `2^63` — and is not replaced by the default (which is
below `2^63`); only a parse result of exactly 0 triggers the default. -/
theorem get_arg_negative_wraps (argv : List String) (i d : Nat)
    (hlen : i < argv.length)
    (hneg : atoi (argv.getD i "") < 0)
    (hlb : -(2 ^ 63) < atoi (argv.getD i ""))
    (hd : d < 2 ^ 63) :
    get_arg argv i d = (atoi (argv.getD i "") + 2 ^ 64).toNat ∧
      2 ^ 63 < get_arg argv i d ∧ get_arg argv i d ≠ d := by
  have hv : ulongOfInt (atoi (argv.getD i "")) = (atoi (argv.getD i "") + 2 ^ 64).toNat := by
    unfold ulongOfInt
    omega
  have h1 : get_arg argv i d =
      if ulongOfInt (atoi (argv.getD i "")) = 0 then d
      else ulongOfInt (atoi (argv.getD i "")) := by
    simp [get_arg, hlen]
  rw [hv] at h1
  rw [if_neg (by omega)] at h1
  refine ⟨h1, ?_, ?_⟩
  · rw [h1]; omega
  · rw [h1]; omega

/-- C9 witness: token `-5` in position 2 resolves to `2^64 - 5`, not the
default 100000. -/
theorem get_arg_negative_wraps_witness :
    get_arg ["callbench", "t", "-5"] 2 100000 = 18446744073709551611 := by
  have h := get_arg_negative_wraps ["callbench", "t", "-5"] 2 100000
    (by decide) (by decide) (by decide) (by decide)
  rw [h.1]
  decide

/-- C10: a `run_bench_ns` loop whose 32-bit unsigned counter is compared
against a 64-bit unsigned bound exits if and only if the bound is at most
`2^32 - 1`; when it does exit, the body runs exactly `bound` times (the first
`bound` counter values stay below the bound, and the counter reaches it on
step `bound`), matching the recursion depth of `run_bench_ns`'s embedding. -/
theorem loop_counter_termination :
    ∀ bound : Nat, (loop_exits bound ↔ bound ≤ 2 ^ 32 - 1) ∧
      (bound ≤ 2 ^ 32 - 1 →
        (∀ n, n < bound → counter_val n < bound) ∧ bound ≤ counter_val bound) := by
  intro bound
  refine ⟨⟨?_, ?_⟩, ?_⟩
  · rintro ⟨n, hn⟩
    rw [counter_val_eq] at hn
    omega
  · intro h
    exact ⟨bound, by rw [counter_val_eq]; omega⟩
  · intro h
    refine ⟨?_, ?_⟩
    · intro n hn
      rw [counter_val_eq]
      omega
    · rw [counter_val_eq]
      omega

/-- C10 witness: a bound of `2^32` never lets the loop exit, while the
default bound 5 does. -/
theorem loop_counter_termination_witness :
    ¬ loop_exits (2 ^ 32) ∧ loop_exits 5 :=
  ⟨fun h => absurd ((loop_counter_termination (2 ^ 32)).1.mp h) (by decide),
   (loop_counter_termination 5).1.mpr (by decide)⟩

lemma get_arg_zero_parse (argv : List String) (i d : Nat)
    (h : ulongOfInt (atoi (argv.getD i "")) = 0) : get_arg argv i d = d := by
  unfold get_arg
  by_cases hlen : i < argv.length
  · rw [List.getD_eq_getElem _ _ hlen] at h
    simp [hlen, h]
  · simp [hlen]

lemma bench_time_congr (a1 a2 : List String) (clock : Nat → timespec)
    (h2 : get_arg a1 2 100000 = get_arg a2 2 100000)
    (h3 : get_arg a1 3 32 = get_arg a2 3 32)
    (h4 : get_arg a1 4 5 = get_arg a2 4 5) :
    bench_time a1 clock = bench_time a2 clock := by
  unfold bench_time
  rw [h2, h3, h4]

lemma bench_file_congr (a1 a2 : List String) (clock : Nat → timespec)
    (h2 : get_arg a1 2 100 = get_arg a2 2 100)
    (h3 : get_arg a1 3 128 = get_arg a2 3 128)
    (h4 : get_arg a1 4 5 = get_arg a2 4 5) :
    bench_file a1 clock = bench_file a2 clock := by
  unfold bench_file
  rw [h2, h3, h4]

/-- C7: a tuning token whose parse is 0 — a literal `0` or any non-numeric
token — behaves exactly like an absent argument: `get_arg` resolves it to the
supplied default (clock pair 100000/32/5, file pair 100/128/5), both for the
full argument vector and for the truncated one with the argument omitted, and
both drivers produce identical results under the two vectors. -/
theorem get_arg_default_substitution :
    (∀ (argv : List String) (i d : Nat),
        ulongOfInt (atoi (argv.getD i "")) = 0 →
          get_arg argv i d = d ∧ get_arg (argv.take i) i d = d) ∧
    (∀ (p m t2 t3 t4 : String) (clock : Nat → timespec),
        ulongOfInt (atoi t2) = 0 → ulongOfInt (atoi t3) = 0 → ulongOfInt (atoi t4) = 0 →
          bench_time [p, m, t2, t3, t4] clock = bench_time [p, m] clock ∧
          bench_file [p, m, t2, t3, t4] clock = bench_file [p, m] clock ∧
          get_arg [p, m, t2, t3, t4] 2 100000 = 100000 ∧
          get_arg [p, m, t2, t3, t4] 3 32 = 32 ∧
          get_arg [p, m, t2, t3, t4] 4 5 = 5 ∧
          get_arg [p, m, t2, t3, t4] 2 100 = 100 ∧
          get_arg [p, m, t2, t3, t4] 3 128 = 128) := by
  have hempty : ulongOfInt (atoi "") = 0 := by decide
  constructor
  · intro argv i d h
    refine ⟨get_arg_zero_parse argv i d h, get_arg_zero_parse _ i d ?_⟩
    have hge : (argv.take i).length ≤ i := List.length_take_le _ _
    rw [List.getD_eq_default _ _ hge]
    exact hempty
  · intro p m t2 t3 t4 clock h2 h3 h4
    have g2 : ∀ d : Nat, get_arg [p, m, t2, t3, t4] 2 d = d := fun d =>
      get_arg_zero_parse _ 2 d h2
    have g3 : ∀ d : Nat, get_arg [p, m, t2, t3, t4] 3 d = d := fun d =>
      get_arg_zero_parse _ 3 d h3
    have g4 : ∀ d : Nat, get_arg [p, m, t2, t3, t4] 4 d = d := fun d =>
      get_arg_zero_parse _ 4 d h4
    have o2 : ∀ d : Nat, get_arg [p, m] 2 d = d := fun d =>
      get_arg_zero_parse _ 2 d hempty
    have o3 : ∀ d : Nat, get_arg [p, m] 3 d = d := fun d =>
      get_arg_zero_parse _ 3 d hempty
    have o4 : ∀ d : Nat, get_arg [p, m] 4 d = d := fun d =>
      get_arg_zero_parse _ 4 d hempty
    exact ⟨bench_time_congr _ _ clock (by rw [g2, o2]) (by rw [g3, o3]) (by rw [g4, o4]),
      bench_file_congr _ _ clock (by rw [g2, o2]) (by rw [g3, o3]) (by rw [g4, o4]),
      g2 100000, g3 32, g4 5, g2 100, g3 128⟩

lemma run_bench_ns_invocations_eq (c i r : Nat) :
    run_bench_ns_invocations c i r = c * i * r := by
  unfold run_bench_ns_invocations
  rw [inv_rep_loop_eq]
  ring

/-- C2: invoking the program with mode `t`, `calls = 1000`, `iters = 4`,
`reps = 1` performs exactly 4000 invocations of `time_syscall_mb` and 4000 of
`time_implicit_mb`, prints exactly one labeled result line per operation, and
exits with status 0 — for every clock trace; and in general `run_bench_ns`
invokes its operation exactly `calls * iters * reps` times. -/
theorem main_mode_t_end_to_end (clock : Nat → timespec) :
    (Callbench.main ["callbench", "t", "1000", "4", "1"] clock).exitCode = 0 ∧
    (Callbench.main ["callbench", "t", "1000", "4", "1"] clock).runs =
      [(MeasuredOp.time_syscall_mb, 4000), (MeasuredOp.time_implicit_mb, 4000)] ∧
    ((Callbench.main ["callbench", "t", "1000", "4", "1"] clock).lines).map Prod.fst =
      ["syscall", "implicit"] ∧
    (Callbench.main ["callbench", "t", "1000", "4", "1"] clock).errMsg = none ∧
    (∀ c i r : Nat, run_bench_ns_invocations c i r = c * i * r) := by
  refine ⟨rfl, ?_, rfl, rfl, run_bench_ns_invocations_eq⟩
  show [(MeasuredOp.time_syscall_mb, run_bench_ns_invocations 1000 4 1),
        (MeasuredOp.time_implicit_mb, run_bench_ns_invocations 1000 4 1)] ++ [] = _
  rw [run_bench_ns_invocations_eq]
  rfl

/-- C2 witness: the end-to-end theorem instantiated at the constant clock. -/
theorem main_mode_t_end_to_end_witness :
    (Callbench.main ["callbench", "t", "1000", "4", "1"] zero_clock).exitCode = 0 ∧
    (Callbench.main ["callbench", "t", "1000", "4", "1"] zero_clock).runs =
      [(MeasuredOp.time_syscall_mb, 4000), (MeasuredOp.time_implicit_mb, 4000)] ∧
    ((Callbench.main ["callbench", "t", "1000", "4", "1"] zero_clock).lines).map Prod.fst =
      ["syscall", "implicit"] ∧
    (Callbench.main ["callbench", "t", "1000", "4", "1"] zero_clock).errMsg = none ∧
    run_bench_ns_invocations 1000 4 1 = 1000 * 4 * 1 :=
  ⟨(main_mode_t_end_to_end zero_clock).1, (main_mode_t_end_to_end zero_clock).2.1,
   (main_mode_t_end_to_end zero_clock).2.2.1, (main_mode_t_end_to_end zero_clock).2.2.2.1,
   (main_mode_t_end_to_end zero_clock).2.2.2.2 1000 4 1⟩

/-- C5: mode dispatch — a first argument whose lowercased first character is
`t` makes `main` measure exactly the two clock operations (in order) and never
a file operation; `f` exactly the two file operations; `a` (which `mode_of`
also yields when the first argument is absent) all four, clock pair first. -/
theorem main_mode_dispatch (argv : List String) (clock : Nat → timespec) :
    (mode_of argv = 't' →
      (Callbench.main argv clock).runs.map Prod.fst =
        [MeasuredOp.time_syscall_mb, MeasuredOp.time_implicit_mb]) ∧
    (mode_of argv = 'f' →
      (Callbench.main argv clock).runs.map Prod.fst =
        [MeasuredOp.mmap_mb, MeasuredOp.file_mb]) ∧
    (mode_of argv = 'a' →
      (Callbench.main argv clock).runs.map Prod.fst =
        [MeasuredOp.time_syscall_mb, MeasuredOp.time_implicit_mb,
         MeasuredOp.mmap_mb, MeasuredOp.file_mb]) ∧
    (argv.length < 2 → mode_of argv = 'a') := by
  refine ⟨?_, ?_, ?_, ?_⟩
  · intro h
    simp [Callbench.main, h, bench_time, bench_file, emptyDriver]
  · intro h
    simp [Callbench.main, h, bench_time, bench_file, emptyDriver]
  · intro h
    simp [Callbench.main, h, bench_time, bench_file, emptyDriver]
  · intro h
    rw [mode_of, if_neg (by omega)]

/-- C5 witness: mode `f` at a concrete argument vector measures exactly the
file pair. -/
theorem main_mode_dispatch_witness :
    mode_of ["callbench", "f"] = 'f' ∧
      (Callbench.main ["callbench", "f"] zero_clock).runs.map Prod.fst =
        [MeasuredOp.mmap_mb, MeasuredOp.file_mb] :=
  ⟨by decide, (main_mode_dispatch ["callbench", "f"] zero_clock).2.1 (by decide)⟩

/-- C6: an invalid first argument — lowercased first character other than
`t`, `f`, `a` — makes `main` exit with status 1, measure nothing, print no
result line, and emit a diagnostic that contains the offending character and
the substring naming the three valid modes. -/
theorem main_invalid_mode (argv : List String) (clock : Nat → timespec) (c : Char)
    (hc : c = tolower (str_head (argv.getD 1 "")))
    (h2 : 2 ≤ argv.length)
    (hne : ¬(c = 't' ∨ c = 'f' ∨ c = 'a')) :
    Callbench.main argv clock =
      { exitCode := 1, runs := [], lines := [], errMsg := some (invalid_mode_msg c) } ∧
    c ∈ (invalid_mode_msg c).data ∧
    (invalid_mode_msg c).data =
      ("Invalid mode " ++ squote ++ String.mk [c] ++ squote ++
        "! Valid modes are: ").data ++ valid_modes_str.data ++ ("\n").data := by
  have hmode : mode_of argv = c := by
    rw [mode_of, if_pos h2, ← hc]
  refine ⟨?_, ?_, ?_⟩
  · simp [Callbench.main, hmode, hne]
  · have hd : (invalid_mode_msg c).data =
        ("Invalid mode " ++ squote).data ++ c ::
          (squote ++ "! Valid modes are: " ++ valid_modes_str ++ "\n").data := rfl
    rw [hd]
    simp
  · rfl

/-- C6 witness: mode `z` at a concrete argument vector. -/
theorem main_invalid_mode_witness :
    Callbench.main ["callbench", "z"] zero_clock =
      { exitCode := 1, runs := [], lines := [],
        errMsg := some (invalid_mode_msg 'z') } ∧
    'z' ∈ (invalid_mode_msg 'z').data ∧
    (invalid_mode_msg 'z').data =
      ("Invalid mode " ++ squote ++ String.mk ['z'] ++ squote ++
        "! Valid modes are: ").data ++ valid_modes_str.data ++ ("\n").data :=
  main_invalid_mode ["callbench", "z"] zero_clock 'z' (by decide) (by decide) (by decide)

/-- C7 witness: the scenario with a zero token, a non-numeric token and an
empty token in the three tuning positions. -/
theorem get_arg_default_substitution_witness :
    bench_time ["callbench", "a", "0", "x", ""] zero_clock =
        bench_time ["callbench", "a"] zero_clock ∧
      bench_file ["callbench", "a", "0", "x", ""] zero_clock =
        bench_file ["callbench", "a"] zero_clock ∧
      get_arg ["callbench", "a", "0", "x", ""] 2 100000 = 100000 ∧
      get_arg ["callbench", "a", "0", "x", ""] 3 32 = 32 ∧
      get_arg ["callbench", "a", "0", "x", ""] 4 5 = 5 ∧
      get_arg ["callbench", "a", "0", "x", ""] 2 100 = 100 ∧
      get_arg ["callbench", "a", "0", "x", ""] 3 128 = 128 :=
  get_arg_default_substitution.2 "callbench" "a" "0" "x" "" zero_clock
    (by decide) (by decide) (by decide)

/-- C8 counterexample: the claim that an operation never proceeds to use an
invalid descriptor and that an acquisition failure terminates the run is
false — in the environment where `open` returns −1, `file_mb` issues `read`
on descriptor −1 and still returns normally (producing a timed sample). -/
theorem resource_failure_cex :
    ¬ (∀ env : OpEnv, env.open_fd = -1 →
        (file_mb env).1 ≠ OpOutcome.normal ∧
          SysEvent.ev_read env.open_fd ∉ (file_mb env).2) := by
  intro h
  exact (h ⟨-1, true⟩ rfl).1 rfl

/-- C8 amended: on every path that returns, each acquired descriptor, buffer
and mapping is released; but acquisition failure is not detected: when `open`
fails, `file_mb` uses the invalid descriptor (`read` on −1) and still returns
normally, and `mmap_mb` returns normally exactly when the mapping succeeds —
otherwise it dereferences the failed mapping and dies in `memcpy`. -/
theorem resource_failure_amended (env : OpEnv) :
    ((file_mb env).1 = OpOutcome.normal ∧
      SysEvent.ev_close env.open_fd ∈ (file_mb env).2 ∧
      (file_mb env).2.count SysEvent.ev_malloc = (file_mb env).2.count SysEvent.ev_free) ∧
    ((mmap_mb env).1 = OpOutcome.normal →
      (SysEvent.ev_close env.open_fd ∈ (mmap_mb env).2 ∧
        (mmap_mb env).2.count SysEvent.ev_malloc = (mmap_mb env).2.count SysEvent.ev_free ∧
        (mmap_mb env).2.count SysEvent.ev_munmap =
          (mmap_mb env).2.count (SysEvent.ev_mmap env.open_fd true))) ∧
    (env.open_fd = -1 →
      SysEvent.ev_read (-1) ∈ (file_mb env).2 ∧ (file_mb env).1 = OpOutcome.normal) ∧
    ((0 ≤ env.open_fd ∧ env.mmap_ok = true) ↔ (mmap_mb env).1 = OpOutcome.normal) := by
  obtain ⟨fd, mok⟩ := env
  refine ⟨⟨rfl, ?_, ?_⟩, ?_, ?_, ?_⟩
  · simp [file_mb]
  · simp [file_mb]
  · by_cases h : 0 ≤ fd ∧ mok = true
    · intro _
      refine ⟨?_, ?_, ?_⟩ <;> simp [mmap_mb, h]
    · intro hnorm
      exfalso
      rw [mmap_mb, if_neg h] at hnorm
      exact OpOutcome.noConfusion hnorm
  · intro hfd
    subst hfd
    exact ⟨by simp [file_mb], rfl⟩
  · by_cases h : 0 ≤ fd ∧ mok = true
    · simp [mmap_mb, h]
    · rw [mmap_mb, if_neg h]
      exact iff_of_false h (fun hnorm => OpOutcome.noConfusion hnorm)

/-- C8 witness: the amended theorem instantiated at the failing-open
environment. -/
theorem resource_failure_amended_witness :
    ((file_mb ⟨-1, true⟩).1 = OpOutcome.normal ∧
      SysEvent.ev_close (OpEnv.mk (-1) true).open_fd ∈ (file_mb ⟨-1, true⟩).2 ∧
      (file_mb ⟨-1, true⟩).2.count SysEvent.ev_malloc =
        (file_mb ⟨-1, true⟩).2.count SysEvent.ev_free) ∧
    ((mmap_mb ⟨-1, true⟩).1 = OpOutcome.normal →
      (SysEvent.ev_close (OpEnv.mk (-1) true).open_fd ∈ (mmap_mb ⟨-1, true⟩).2 ∧
        (mmap_mb ⟨-1, true⟩).2.count SysEvent.ev_malloc =
          (mmap_mb ⟨-1, true⟩).2.count SysEvent.ev_free ∧
        (mmap_mb ⟨-1, true⟩).2.count SysEvent.ev_munmap =
          (mmap_mb ⟨-1, true⟩).2.count
            (SysEvent.ev_mmap (OpEnv.mk (-1) true).open_fd true))) ∧
    ((OpEnv.mk (-1) true).open_fd = -1 →
      SysEvent.ev_read (-1) ∈ (file_mb ⟨-1, true⟩).2 ∧
        (file_mb ⟨-1, true⟩).1 = OpOutcome.normal) ∧
    ((0 ≤ (OpEnv.mk (-1) true).open_fd ∧ (OpEnv.mk (-1) true).mmap_ok = true) ↔
      (mmap_mb ⟨-1, true⟩).1 = OpOutcome.normal) :=
  resource_failure_amended ⟨-1, true⟩

end Callbench
